import Mathlib

/-!
Verification of the ai-composition-assistant orchestration code.

Shallow embedding of `src/compositionAgent.py`, `src/MidiHandler.py` and the
tool schemas they declare.  Python floats (quarter-length offsets and
durations) are modelled as rationals.  The music21 part is modelled at two
levels of detail: a flat stream of pitched events, each carrying its offset
in the part (the insertion level where `add_notes` places notes, whose
`note.offset` is the offset measured from the start of the piece), and — for
the behaviour that depends on it — the Measure-structured part a parsed MIDI
really has, where nested notes report measure-relative offsets and
`Stream.remove` with its default `recurse=False` cannot reach them.  The
langgraph `add_messages` reducer and the pydantic field validation used by
the tool layer are modelled by the functions below, following their
documented semantics.
-/

namespace CompAssist

/-! ## Pitches, events, parts -/

/-- A music21 pitch, as the code reads it: its name (step plus accidental,
music21 spells flats with a dash, e.g. `E-`), its pitch class (0–11) and its
octave number. -/
structure Pitch where
  name : String
  pitchClass : Nat
  octave : Int
  deriving Repr, DecidableEq

/-- A pitched element of the stream: a single note or a chord, with its
quarter-length duration. -/
inductive MElem where
  | note (p : Pitch) (ql : ℚ)
  | chord (ps : List Pitch) (ql : ℚ)
  deriving Repr, DecidableEq

/-- One event of a part: a note or chord at an offset (quarter lengths from
the start of the piece). -/
structure Event where
  offset : ℚ
  elem : MElem
  deriving Repr, DecidableEq

/-- A part is a stream of events. -/
abbrev Part := List Event

/-- The key signature, as `get_key` returns it: the scale pitches
(`key.pitches` in music21), each with a name and a pitch class. -/
structure Key where
  pitches : List Pitch
  deriving Repr, DecidableEq

/-- The loaded score (`self.midi_data`).  Every method of `MidiHandler`
addresses `parts[0]`; a parsed MIDI always has at least one part, so the
first part is a separate field and the remaining parts form a list. -/
structure MidiData where
  part0 : Part
  restParts : List Part
  key : Key
  deriving Repr, DecidableEq

/-! ## Conversation messages and the langgraph reducer -/

/-- A role-tagged message of the conversation log. -/
inductive Msg where
  | system (content : String)
  | human (content : String)
  | ai (content : String)
  | toolMsg (content : String)
  /-- Models `RemoveMessage(id=REMOVE_ALL_MESSAGES)`. -/
  | removeAll
  deriving Repr, DecidableEq

/-- The langgraph `add_messages` reducer, restricted to the messages this
program produces (all ids fresh): the update messages are appended in order,
and a `RemoveMessage(id=REMOVE_ALL_MESSAGES)` wipes everything accumulated so
far. -/
def add_messages (log update : List Msg) : List Msg :=
  update.foldl (fun acc m =>
    match m with
    | Msg.removeAll => []
    | m => acc ++ [m]) log

/-! ## Routing after the handler (`after_handler`) -/

/-- The two routing targets `after_handler` can return. -/
inductive Route where
  | composer_planner
  | reviewer_planner
  deriving Repr, DecidableEq

/-- The outcome of `after_handler`: the chosen next node, and whether the
pre-review checkpoint `save_midi("our_generated_output/last_output_pre_review.mid")`
was performed on the way. -/
structure RouteResult where
  route : Route
  checkpointSaved : Bool
  deriving Repr, DecidableEq

/-- Routing function `after_handler` (compositionAgent.py): if `in_review_mode` go back to the
reviewer; otherwise compare `get_number_of_measures()` with
`target_measures`, routing to the composer below target and to the reviewer
(saving a pre-review checkpoint) at or above target. -/
def after_handler (in_review_mode : Bool) (cur_measures : ℕ)
    (target_measures : ℚ) : RouteResult :=
  if in_review_mode then
    ⟨Route.reviewer_planner, false⟩
  else if (cur_measures : ℚ) < target_measures then
    ⟨Route.composer_planner, false⟩
  else
    ⟨Route.reviewer_planner, true⟩

/-! ## MidiHandler operations -/

/-- Truncation toward zero, Python's `int(...)` on a non-negative-or-negative
rational.  For the non-negative offsets the program produces, this is plain
floor. -/
def pyInt (q : ℚ) : Int :=
  if q < 0 then -((-q).num / ((-q).den : Int)) else q.num / (q.den : Int)

/-- Embeds `MidiHandler._format_pitch`: `nameWithOctave` with music21 dashes for
flats replaced by `b`. -/
def formatPitch (p : Pitch) : String :=
  (p.name.replace "-" "b") ++ toString p.octave

/-- Pitch-class contribution of a step letter (`C`=0 … `B`=11). -/
def stepPitchClass (c : Char) : Nat :=
  if c = 'C' then 0 else if c = 'D' then 2 else if c = 'E' then 4
  else if c = 'F' then 5 else if c = 'G' then 7 else if c = 'A' then 9
  else 11

/-- Models `m21.note.Note(pitchString)`: parse a name such as `Bb4`, `C#5`, `E-3`
into step, accidentals (`#` raises, `b`/`-` lowers; music21 normalises `b`
to `-` in the stored name) and octave. -/
def parsePitch (s : String) : Pitch :=
  match s.data with
  | [] => ⟨"C", 0, 4⟩
  | c :: rest =>
      let accML := rest.takeWhile (fun ch => ch = '#' || ch = 'b' || ch = '-')
      let alter : Int := (accML.countP (· = '#') : Int) -
        (accML.countP (fun ch => ch = 'b' || ch = '-') : Int)
      let octStr := String.mk (rest.drop accML.length)
      let octave := (octStr.toInt?).getD 4
      let name := String.mk (c :: accML.map (fun ch => if ch = 'b' then '-' else ch))
      ⟨name, (((stepPitchClass c : Int) + alter) % 12).toNat, octave⟩

/-- Embeds `MidiHandler.get_notes`: the events of `parts[0]` sorted by offset,
optionally filtered from a positive offset, or — for a negative argument —
from `get_duration() + offset` (the piece duration is a parameter here; the
source computes it from the tempo map). -/
def get_notes (d : MidiData) (pieceDuration : ℚ) (offset : ℚ) : List Event :=
  let notes := List.insertionSort (fun a b : Event => a.offset ≤ b.offset) d.part0
  if offset < 0 then
    notes.filter (fun n => n.offset ≥ pieceDuration + offset)
  else if offset > 0 then
    notes.filter (fun n => n.offset ≥ offset)
  else
    notes

/-- One entry of `get_notes_json`'s flat event list.  The source renders the
duration as music21's duration-type name; the quarter length it is derived
from is kept here. -/
structure EventJson where
  measure : Int
  offset : ℚ
  durationQl : ℚ
  kind : String
  pitches : List String
  deriving Repr, DecidableEq

/-- Build the JSON record of one event (`measure = int(offset / beats_per_measure)`). -/
def mkEventJson (bpm : ℚ) (e : Event) : EventJson :=
  let m := pyInt (e.offset / bpm)
  match e.elem with
  | MElem.note p ql => ⟨m, e.offset, ql, "note", [formatPitch p]⟩
  | MElem.chord ps ql => ⟨m, e.offset, ql, "chord", ps.map formatPitch⟩

/-- Embeds `MidiHandler.get_notes_json`: all events, skipping those outside the
requested measure window (`measure_nums > 0`: keep measures `≤ measure_nums`;
`measure_nums < 0`: keep the last `-measure_nums` measures; `0`: keep all).
`beats_per_measure` and the total measure count are parameters here; the
source reads them off the time signature and the measure list. -/
def get_notes_json (d : MidiData) (pieceDuration bpm : ℚ)
    (totalMeasures : Int) (measureNums : Int) : List EventJson :=
  (get_notes d pieceDuration 0).filterMap (fun e =>
    let m := pyInt (e.offset / bpm)
    if measureNums > 0 ∧ m > measureNums then none
    else if measureNums < 0 ∧ m < totalMeasures + measureNums then none
    else some (mkEventJson bpm e))

/-- Textual rendering of the event list (stands in for Python's `str` of the
`get_notes_json` dict). -/
def eventJsonString (e : EventJson) : String :=
  "(measure " ++ toString e.measure ++ ", offset " ++ toString e.offset ++
    ", duration " ++ toString e.durationQl ++ ", " ++ e.kind ++ " " ++
    String.intercalate " " e.pitches ++ ")"

/-- Rendering of the whole `get_notes_json` result. -/
def notesJsonString (events : List EventJson) : String :=
  "notes: [" ++ String.intercalate ", " (events.map eventJsonString) ++ "]"

/-- Embeds `MidiHandler.add_notes`: insert each `(pitch, quarterLength, offset)`
into `parts[0]` at its offset, and return the confirmation string. -/
def add_notes (d : MidiData) (notes : List (String × ℚ × ℚ)) :
    MidiData × String :=
  ({ d with
      part0 := d.part0 ++ notes.map (fun n =>
        ⟨n.2.2, MElem.note (parsePitch n.1) n.2.1⟩) },
   "Added " ++ toString notes.length ++ " notes to the MIDI data.")

/-- The loop of `MidiHandler.remove_notes`: walk the events of `parts[0]`,
dropping those with `start <= note.offset < end` and counting them. -/
def remove_notes_loop (start stop : ℚ) : List Event → List Event × Nat
  | [] => ([], 0)
  | ev :: rest =>
      let (l, n) := remove_notes_loop start stop rest
      if start ≤ ev.offset ∧ ev.offset < stop then (l, n + 1) else (ev :: l, n)

/-- Embeds `MidiHandler.remove_notes` as it acts on the top level of
`parts[0]`: the insertion-level events (the flat stream this model uses,
and where `add_notes` inserts), whose `note.offset` is their piece offset.
The method's behaviour on the Measure-nested notes of a freshly loaded
piece — where `note.offset` is measure-relative and `part.remove` with its
default `recurse=False` cannot reach the note — is modelled separately by
`remove_notes_h` on the Measure-structured part below. -/
def remove_notes (d : MidiData) (start stop : ℚ) : MidiData × String :=
  let r := remove_notes_loop start stop d.part0
  ({ d with part0 := r.1 },
   "Removed " ++ toString r.2 ++ " notes between " ++ toString start ++
     " and " ++ toString stop ++ " seconds.")

/-! ## The Measure-structured part

A parsed MIDI's `parts[0]` does not hold its notes directly: `converter.parse`
builds `Measure` containers (the repository relies on them:
`get_number_of_measures` counts `Measure` objects and `get_time_signature`
indexes `parts[0].measures(0,1)[0]`).  A note nested in a Measure reports
`note.offset` relative to that Measure, which is why `get_notes` must use
`getOffsetInHierarchy(part)` for piece offsets; and music21's
`Stream.remove(target)` with its default `recurse=False` looks for the
target only among the stream's immediate elements, silently doing nothing
when the target sits inside a Measure.  The two-level part below models
exactly this. -/

/-- A top-level element of the loaded part: a note inserted directly in the
part (as `add_notes` does, at its piece offset), or a `Measure` at its own
offset holding notes whose `Event.offset` is measure-relative. -/
inductive MPartElem where
  | note (ev : Event)
  | measure (offset : ℚ) (notes : List Event)
  deriving Repr, DecidableEq

/-- A Measure-structured part. -/
abbrev MPart := List MPartElem

/-- Models `part.recurse().notes` read through `note.offset`: every note of
the part, each contributing the offset Python's `note.offset` attribute
yields — the offset in its immediate container, i.e. the piece offset for a
top-level note but the measure-relative offset for a nested one. -/
def recurseNoteOffsets (p : MPart) : List ℚ :=
  p.flatMap (fun el =>
    match el with
    | MPartElem.note ev => [ev.offset]
    | MPartElem.measure _ ns => ns.map Event.offset)

/-- Models `getOffsetInHierarchy(part)` for every note of the part: the
absolute piece offset (a nested note sits at measure offset plus its
in-measure offset), as `get_notes` computes it. -/
def absoluteNoteOffsets (p : MPart) : List ℚ :=
  p.flatMap (fun el =>
    match el with
    | MPartElem.note ev => [ev.offset]
    | MPartElem.measure off ns => ns.map (fun ev => off + ev.offset))

/-- Embeds `MidiHandler.remove_notes` on the Measure-structured part: the
loop visits every note of `part.recurse().notes` and, whenever
`start <= note.offset < end` holds of the container-relative `note.offset`,
calls `part.remove(note)` and increments `removed`.  `part.remove` (default
`recurse=False`) deletes a top-level note but silently skips a
Measure-nested one, while the counter increments either way — so the
returned part keeps every Measure intact and the count is the number of
in-range container-relative offsets, removed or not. -/
def remove_notes_h (p : MPart) (start stop : ℚ) : MPart × Nat :=
  let inR : ℚ → Bool := fun o => decide (start ≤ o ∧ o < stop)
  (p.filter (fun el =>
      match el with
      | MPartElem.note ev => !(inR ev.offset)
      | MPartElem.measure _ _ => true),
   (recurseNoteOffsets p).countP inR)

/-! ## `replace_passage` and the tool layer

The `replace_passage` tool hands `MidiHandler.replace_passage` a list of
`(pitch, duration, offset)` triples, while the method iterates
`for pitch, ql in notes`, i.e. unpacks each element as a pair.  Python
tuples are untyped at runtime, so the method is modelled over lists of
Python values and the unpacking as the fallible operation it is. -/

/-- A Python runtime value appearing in a note tuple. -/
inductive PyVal where
  | str (s : String)
  | num (q : ℚ)
  deriving Repr, DecidableEq

/-- Python's `a, b = t`: succeeds exactly on two-element tuples. -/
def pyUnpack2 (t : List PyVal) : Except String (PyVal × PyVal) :=
  match t with
  | [a, b] => Except.ok (a, b)
  | _ :: _ :: _ :: _ =>
      Except.error "ValueError: too many values to unpack (expected 2)"
  | _ => Except.error "ValueError: not enough values to unpack"

/-- The insertion loop of `MidiHandler.replace_passage`: unpack each note
tuple as `(pitch, ql)`, insert it at the running cursor and advance the
cursor by `ql`.  The state reached so far is kept even when an unpacking
error is raised, since the Python method mutates the score in place. -/
def rp_loop : MidiData → ℚ → List (List PyVal) → MidiData × Except String Unit
  | d, _, [] => (d, Except.ok ())
  | d, cur, t :: rest =>
      match pyUnpack2 t with
      | Except.error msg => (d, Except.error msg)
      | Except.ok (PyVal.str pitch, PyVal.num ql) =>
          rp_loop (add_notes d [(pitch, ql, cur)]).1 (cur + ql) rest
      | Except.ok _ => (d, Except.error "TypeError: invalid note tuple")

/-- Embeds `MidiHandler.replace_passage`: `remove_notes(start, end)` first, then the
sequential insertion loop starting at `start`; on success return the
confirmation string. -/
def replace_passage (d : MidiData) (start stop : ℚ)
    (notes : List (List PyVal)) : MidiData × Except String String :=
  let d1 := (remove_notes d start stop).1
  let r := rp_loop d1 start notes
  (r.1,
   match r.2 with
   | Except.ok _ =>
       Except.ok ("Replaced passage " ++ toString start ++ "-" ++
         toString stop ++ " with " ++ toString notes.length ++ " notes.")
   | Except.error msg => Except.error msg)

/-- The `replace_passage` tool body: it passes
`[(n.pitch, n.duration, n.offset) for n in notes]` — triples — to the
method. -/
def tool_replace_passage (d : MidiData) (start stop : ℚ)
    (notes : List (String × ℚ × ℚ)) : MidiData × Except String String :=
  replace_passage d start stop
    (notes.map (fun n => [PyVal.str n.1, PyVal.num n.2.1, PyVal.num n.2.2]))

/-! ## Tool argument schemas (pydantic field constraints) -/

/-- Schema `NoteInput`: `duration` has `gt=0`, `offset` has `ge=0`; the pitch string
is unconstrained. -/
def noteInputValid (duration offset : ℚ) : Bool :=
  decide (0 < duration) && decide (0 ≤ offset)

/-- Schema of the `add_notes` tool: every item must be a valid `NoteInput`. -/
def add_notes_args_valid (notes : List (String × ℚ × ℚ)) : Bool :=
  notes.all (fun n => noteInputValid n.2.1 n.2.2)

/-- Schema of the `remove_notes` tool: `start_offset` has `gt=0` and
`end_offset` has `gt=0`. -/
def remove_notes_args_valid (start_offset end_offset : ℚ) : Bool :=
  decide (0 < start_offset) && decide (0 < end_offset)

/-- Schema of the `replace_passage` tool: `start_offset` has `ge=0`,
`end_offset` has `gt=0`, and every item must be a valid `NoteInput`. -/
def replace_passage_args_valid (start_offset end_offset : ℚ)
    (notes : List (String × ℚ × ℚ)) : Bool :=
  decide (0 ≤ start_offset) && decide (0 < end_offset) &&
    notes.all (fun n => noteInputValid n.2.1 n.2.2)

/-- A tool call the Oracle can request from the Handler. -/
inductive ToolCall where
  | add_notes (notes : List (String × ℚ × ℚ))
  | remove_notes (start_offset end_offset : ℚ)
  | replace_passage (start_offset end_offset : ℚ)
      (notes : List (String × ℚ × ℚ))
  deriving Repr, DecidableEq

/-- Whether a call satisfies its tool's argument schema. -/
def schemaValid : ToolCall → Bool
  | ToolCall.add_notes notes => add_notes_args_valid notes
  | ToolCall.remove_notes s e => remove_notes_args_valid s e
  | ToolCall.replace_passage s e notes => replace_passage_args_valid s e notes

/-- The error `ToolMessage` that langgraph's tool node reports into the
conversation when pydantic rejects the arguments. -/
def validationMsg (toolName : String) : Msg :=
  Msg.toolMsg ("ValidationError: " ++ toolName ++
    " arguments do not satisfy the tool schema")

/-- One tool dispatch inside the Handler hop loop, as `create_react_agent`
performs it: validate the arguments against the tool schema — on violation
report a validation `ToolMessage` and leave the score untouched — otherwise
run the tool body.  `Except.error` marks an uncaught Python exception raised
by the tool body itself. -/
def handler_dispatch (d : MidiData) (c : ToolCall) :
    MidiData × Except String Msg :=
  match c with
  | ToolCall.add_notes notes =>
      if add_notes_args_valid notes then
        ((add_notes d notes).1,
         Except.ok (Msg.toolMsg ("Added " ++ toString notes.length ++ " notes.")))
      else (d, Except.ok (validationMsg "add_notes"))
  | ToolCall.remove_notes s e =>
      if remove_notes_args_valid s e then
        let r := remove_notes d s e
        (r.1, Except.ok (Msg.toolMsg r.2))
      else (d, Except.ok (validationMsg "remove_notes"))
  | ToolCall.replace_passage s e notes =>
      if replace_passage_args_valid s e notes then
        let r := tool_replace_passage d s e notes
        (r.1,
         match r.2 with
         | Except.ok msg => Except.ok (Msg.toolMsg msg)
         | Except.error msg => Except.error msg)
      else (d, Except.ok (validationMsg "replace_passage"))

/-! ## Pitch normalisation at load time -/

/-- Computes `set(p.name for p in key.pitches)`. -/
def keyPitchNames (key : Key) : List String := key.pitches.map Pitch.name

/-- The respelling applied to one pitch by
`MidiHandler.normalize_pitches_to_key`: a pitch whose name is not among the
key-scale names but whose pitch class equals that of some scale pitch takes
the first such scale pitch's spelling, keeping its own octave.  The source
repeats this logic once for `Note` objects and once per chord pitch (with a
`for…else` keeping the original); both reduce to this function. -/
def respellPitch (key : Key) (p : Pitch) : Pitch :=
  if p.name ∈ keyPitchNames key then p
  else
    match key.pitches.find? (fun kp => kp.pitchClass == p.pitchClass) with
    | some kp => ⟨kp.name, kp.pitchClass, p.octave⟩
    | none => p

/-- Respelling of one event (note or chord). -/
def normalizeEvent (key : Key) (ev : Event) : Event :=
  { ev with
    elem :=
      match ev.elem with
      | MElem.note p ql => MElem.note (respellPitch key p) ql
      | MElem.chord ps ql => MElem.chord (ps.map (respellPitch key)) ql }

/-- Embeds `MidiHandler.normalize_pitches_to_key`: respell the notes and chords of
`parts[0]` (`part = self.midi_data.parts[0]`); other parts are not
visited. -/
def normalize_pitches_to_key (d : MidiData) : MidiData :=
  { d with part0 := d.part0.map (normalizeEvent d.key) }

/-- Embeds `MidiHandler.__init__`: `load_midi()` (the parsed score is the argument
here) followed by `normalize_pitches_to_key()`. -/
def mhInit (loaded : MidiData) : MidiData :=
  normalize_pitches_to_key loaded

/-! ## Composer and Reviewer planners -/

/-- Models Python's `str.strip`: drop whitespace from both ends. -/
def pyStrip (s : String) : String :=
  String.mk
    ((s.data.dropWhile Char.isWhitespace).reverse.dropWhile
      Char.isWhitespace).reverse

/-- Models Python's `str.lower` on the ASCII strings this program compares:
character-wise lowercasing. -/
def pyLower (s : String) : String := String.mk (s.data.map Char.toLower)

/-- Everything `reviewer_planner` produces: the state update it returns, the
message list it contributes (merged by `add_messages`), whether the LLM was
invoked, and the lines it prints. -/
structure ReviewerResult where
  reviewerSatisfied : Bool
  reviewIterations : Nat
  inReviewMode : Bool
  messagesUpdate : List Msg
  oracleInvoked : Bool
  printed : List String
  deriving Repr, DecidableEq

/-- The `content = f"CONTEXT_NOTES_JSON:\n{all_notes_json}\n\n{reviewer_feedback}"`
line of `reviewer_planner`: the reviewer's instruction with the whole piece
(`get_notes_json()`, no measure window) attached. -/
def reviewerContent (d : MidiData) (pieceDuration bpm : ℚ) (totalMeasures : Int)
    (feedback : String) : String :=
  "CONTEXT_NOTES_JSON:\n" ++
    notesJsonString (get_notes_json d pieceDuration bpm totalMeasures 0) ++
    "\n\n" ++ feedback

/-- Embeds `reviewer_planner` (compositionAgent.py).  The Generation Oracle's reply
is the `critiqueContent` parameter; `oracleInvoked` records whether the
branch taken reaches `reviewer_llm.invoke`. -/
def reviewer_planner (current_iterations max_review_iterations : Nat)
    (d : MidiData) (pieceDuration bpm : ℚ) (totalMeasures : Int)
    (critiqueContent : String) : ReviewerResult :=
  if current_iterations ≥ max_review_iterations then
    { reviewerSatisfied := true
      reviewIterations := current_iterations + 1
      inReviewMode := false
      messagesUpdate := []
      oracleInvoked := false
      printed := ["Maximum review iterations (" ++
        toString max_review_iterations ++ ") reached. Ending review process."] }
  else
    let printedHead := "Review iteration " ++
      toString (current_iterations + 1) ++ "/" ++ toString max_review_iterations
    if pyLower (pyStrip critiqueContent) = "verified" then
      { reviewerSatisfied := true
        reviewIterations := current_iterations + 1
        inReviewMode := false
        messagesUpdate := []
        oracleInvoked := true
        printed := [printedHead, "Reviewer is satisfied with the composition."] }
    else
      let reviewer_feedback := pyStrip critiqueContent
      if reviewer_feedback ≠ "" then
        { reviewerSatisfied := false
          reviewIterations := current_iterations + 1
          inReviewMode := true
          messagesUpdate := [Msg.human
            (reviewerContent d pieceDuration bpm totalMeasures reviewer_feedback)]
          oracleInvoked := true
          printed := [printedHead,
            "Reviewer critique: \x27" ++ reviewer_feedback ++ "\x27"] }
      else
        { reviewerSatisfied := true
          reviewIterations := current_iterations + 1
          inReviewMode := false
          messagesUpdate := []
          oracleInvoked := true
          printed := [printedHead, "Reviewer is satisfied with the composition."] }

/-- The `content = f"CONTEXT_NOTES_JSON:\n{last_measures_json}\n\n{suggestion.content}"`
line of `composer_planner`: the composer's instruction with the
last-12-measures window (`get_notes_json(measure_nums=-12)`) attached. -/
def composerContent (d : MidiData) (pieceDuration bpm : ℚ)
    (totalMeasures : Int) (suggestion : String) : String :=
  "CONTEXT_NOTES_JSON:\n" ++
    notesJsonString (get_notes_json d pieceDuration bpm totalMeasures (-12)) ++
    "\n\n" ++ suggestion

/-- Embeds `composer_planner` (compositionAgent.py): build the instruction from the
last-12-measures window and the Composer LLM's suggestion, and return the
message update `[RemoveMessage(REMOVE_ALL_MESSAGES), handler_sys_msg,
HumanMessage(content)]`.  `handler_sys_msg` is `messages[0] if messages else
None`; the unreachable `None` case (the log always carries the system
message placed by `dynamic_rule_builder`) is modelled by omitting the
entry. -/
def composer_planner (log : List Msg) (d : MidiData) (pieceDuration bpm : ℚ)
    (totalMeasures : Int) (suggestionContent : String) : List Msg :=
  [Msg.removeAll] ++ log.head?.toList ++
    [Msg.human (composerContent d pieceDuration bpm totalMeasures suggestionContent)]

/-! ## Claim theorems -/

/-- C2: the post-Handler routing decision is a pure function of session
state: in review mode it routes to the Reviewer regardless of extent;
otherwise it routes to the Composer iff the current measure count is strictly
below the target, and to the Reviewer — performing the pre-review checkpoint
save exactly on that transition — iff the current measure count is at least
the target. -/
theorem after_handler_routing (r : Bool) (cur : ℕ) (target : ℚ) :
    ((after_handler r cur target).route = Route.reviewer_planner ↔
      (r = true ∨ target ≤ (cur : ℚ))) ∧
    ((after_handler r cur target).route = Route.composer_planner ↔
      (r = false ∧ (cur : ℚ) < target)) ∧
    ((after_handler r cur target).checkpointSaved = true ↔
      (r = false ∧ target ≤ (cur : ℚ))) := by
  unfold after_handler
  rcases r with _ | _
  · by_cases h : (cur : ℚ) < target
    · simp [h, not_le.mpr h]
    · simp [h, not_lt.mp h]
  · simp

/-! ## Concrete data for witnesses and counterexamples -/

/-- A G-major key, as `get_key().pitches` yields it (tonic to tonic). -/
def keyEx : Key :=
  ⟨[⟨"G", 7, 4⟩, ⟨"A", 9, 4⟩, ⟨"B", 11, 4⟩, ⟨"C", 0, 5⟩,
    ⟨"D", 2, 5⟩, ⟨"E", 4, 5⟩, ⟨"F#", 6, 5⟩, ⟨"G", 7, 5⟩]⟩

/-- A small single-part score in G major. -/
def dEx : MidiData :=
  ⟨[⟨0, MElem.note ⟨"G", 7, 4⟩ 1⟩, ⟨1, MElem.note ⟨"B", 11, 4⟩ 1⟩], [], keyEx⟩

/-- A two-part score whose second part holds a `G-` (pitch class 6), the
enharmonic respelling of the key scale's `F#`. -/
def dEx2 : MidiData :=
  ⟨[], [[⟨0, MElem.note ⟨"G-", 6, 4⟩ 1⟩]], keyEx⟩

/-- A conversation log as it stands after a Handler invocation: system
message, instruction, and the Handler's tool-call transcript. -/
def logEx : List Msg :=
  [Msg.system "handler system prompt", Msg.human "add measure 17",
   Msg.ai "calling add notes", Msg.toolMsg "Added 3 notes.", Msg.ai "done"]

/-- A freshly loaded 3/4 part as `converter.parse` structures it: two
Measures at piece offsets 0 and 3, each holding one note at
measure-relative offset 0 — so the second note's absolute piece offset
is 3 while its `note.offset` reads 0. -/
def mpartEx : MPart :=
  [MPartElem.measure 0 [⟨0, MElem.note ⟨"G", 7, 4⟩ 1⟩],
   MPartElem.measure 3 [⟨0, MElem.note ⟨"A", 9, 4⟩ 1⟩]]

/-! ## Helper lemmas -/

theorem remove_notes_loop_eq (s e : ℚ) (l : List Event) :
    remove_notes_loop s e l =
      (l.filter (fun ev => decide (¬(s ≤ ev.offset ∧ ev.offset < e))),
       l.countP (fun ev => decide (s ≤ ev.offset ∧ ev.offset < e))) := by
  induction l with
  | nil => rfl
  | cons ev rest ih =>
      simp only [remove_notes_loop, ih, List.filter_cons, List.countP_cons]
      by_cases h : s ≤ ev.offset ∧ ev.offset < e
      · simp [h]
      · simp [h]

theorem add_notes_restParts (d : MidiData) (notes : List (String × ℚ × ℚ)) :
    (add_notes d notes).1.restParts = d.restParts := rfl

theorem remove_notes_restParts (d : MidiData) (s e : ℚ) :
    (remove_notes d s e).1.restParts = d.restParts := rfl

theorem rp_loop_restParts (l : List (List PyVal)) :
    ∀ (d : MidiData) (cur : ℚ), (rp_loop d cur l).1.restParts = d.restParts := by
  induction l with
  | nil => intro d cur; rfl
  | cons t rest ih =>
      intro d cur
      show (rp_loop d cur (t :: rest)).1.restParts = d.restParts
      rcases t with _ | ⟨a, t1⟩
      · rfl
      rcases t1 with _ | ⟨b, t2⟩
      · rfl
      rcases t2 with _ | ⟨c, t3⟩
      · rcases a with s1 | q1 <;> rcases b with s2 | q2 <;>
          first
            | exact ih _ _
            | rfl
      · rfl

theorem replace_passage_restParts (d : MidiData) (s e : ℚ)
    (l : List (List PyVal)) :
    (replace_passage d s e l).1.restParts = d.restParts := by
  show (rp_loop (remove_notes d s e).1 s l).1.restParts = d.restParts
  rw [rp_loop_restParts]
  rfl

theorem tool_replace_passage_restParts (d : MidiData) (s e : ℚ)
    (notes : List (String × ℚ × ℚ)) :
    (tool_replace_passage d s e notes).1.restParts = d.restParts :=
  replace_passage_restParts d s e _

theorem get_notes_zero (d : MidiData) (pd : ℚ) :
    get_notes d pd 0 =
      List.insertionSort (fun a b : Event => a.offset ≤ b.offset) d.part0 := by
  simp [get_notes]

theorem get_notes_zero_length (d : MidiData) (pd : ℚ) :
    (get_notes d pd 0).length = d.part0.length := by
  rw [get_notes_zero]
  exact (List.perm_insertionSort _ _).length_eq

theorem get_notes_json_zero (d : MidiData) (pd bpm : ℚ) (tm : Int) :
    get_notes_json d pd bpm tm 0 =
      (get_notes d pd 0).map (mkEventJson bpm) := by
  unfold get_notes_json
  have h : ∀ l : List Event,
      l.filterMap (fun e =>
        let m := pyInt (e.offset / bpm)
        if (0 : Int) > 0 ∧ m > 0 then none
        else if (0 : Int) < 0 ∧ m < tm + 0 then none
        else some (mkEventJson bpm e)) = l.map (mkEventJson bpm) := by
    intro l
    induction l with
    | nil => rfl
    | cons e rest ih => exact congrArg (List.cons (mkEventJson bpm e)) ih
  exact h _

/-! ## Claim C4 -/

/-- C4 (refuted; code bug): the `replace_passage` tool builds
`(pitch, duration, offset)` triples while `MidiHandler.replace_passage`
unpacks each item as a pair, so for every non-empty items list the call
raises `ValueError: too many values to unpack` — after the range has already
been deleted and before anything is inserted.  The claimed
delete-then-insert-and-confirm behaviour never happens on non-empty input. -/
theorem replace_passage_tool_crashes (d : MidiData) (s e : ℚ)
    (notes : List (String × ℚ × ℚ)) (h : notes ≠ []) :
    (tool_replace_passage d s e notes).2 =
      Except.error "ValueError: too many values to unpack (expected 2)" ∧
    (tool_replace_passage d s e notes).1 = (remove_notes d s e).1 := by
  cases notes with
  | nil => exact absurd rfl h
  | cons n rest => exact ⟨rfl, rfl⟩

/-- Witness for C4: the concrete failing call
`replace_passage(0.0, 4.0, [("C4", 1.0, 0.0)])`. -/
theorem replace_passage_tool_crashes_witness :
    ([("C4", (1 : ℚ), (0 : ℚ))] ≠ ([] : List (String × ℚ × ℚ))) ∧
    (tool_replace_passage dEx 0 4 [("C4", 1, 0)]).2 =
      Except.error "ValueError: too many values to unpack (expected 2)" :=
  ⟨by decide, (replace_passage_tool_crashes dEx 0 4 [("C4", 1, 0)] (by decide)).1⟩

/-! ## Claim C5 -/

/-- C5 (refuted; code bug): on the Measure-structured part of a loaded
piece, `deleteRange` does not remove the events whose absolute piece offset
lies in `[start, end)`, and the reported count does not count removals.
The loop tests `note.offset`, which is measure-relative for a nested note,
and `part.remove` (default `recurse=False`) never removes a Measure-nested
note anyway — Measures always survive intact (first conjunct).  Concretely,
on `mpartEx` (absolute note offsets 0 and 3): `deleteRange(3, 4)` should
remove the event at absolute offset 3 but removes nothing and reports 0;
`deleteRange(0, 1)` should remove one event (absolute offset 0) but removes
nothing while reporting 2, because both nested notes read `note.offset = 0`. -/
theorem remove_notes_nested_offsets_bug :
    (∀ (p : MPart) (s e off : ℚ) (ns : List Event),
      MPartElem.measure off ns ∈ p →
        MPartElem.measure off ns ∈ (remove_notes_h p s e).1) ∧
    absoluteNoteOffsets mpartEx = [0, 3] ∧
    ((3 : ℚ) ≤ 3 ∧ (3 : ℚ) < 4) ∧
    remove_notes_h mpartEx 3 4 = (mpartEx, 0) ∧
    remove_notes_h mpartEx 0 1 = (mpartEx, 2) := by
  refine ⟨?_, ?_, by decide, by decide, by decide⟩
  · intro p s e off ns h
    exact List.mem_filter.mpr ⟨h, rfl⟩
  · show absoluteNoteOffsets mpartEx = [0, 3]
    simp [absoluteNoteOffsets, mpartEx]

/-- Witness for C5: the Measure at piece offset 3 of `mpartEx` survives
`deleteRange(3, 4)` intact, nested note and all. -/
theorem remove_notes_nested_offsets_bug_witness :
    MPartElem.measure 3 [⟨0, MElem.note ⟨"A", 9, 4⟩ 1⟩] ∈
      (remove_notes_h mpartEx 3 4).1 :=
  remove_notes_nested_offsets_bug.1 mpartEx 3 4 3
    [⟨0, MElem.note ⟨"A", 9, 4⟩ 1⟩] (by decide)

theorem filter_keep_map_note (q : Event → Bool) (l : List Event) :
    List.filter (fun el =>
      match el with
      | MPartElem.note ev => q ev
      | MPartElem.measure _ _ => true) (l.map MPartElem.note) =
    (l.filter q).map MPartElem.note := by
  induction l with
  | nil => rfl
  | cons ev rest ih =>
      rw [List.map_cons, List.filter_cons, List.filter_cons]
      cases hq : q ev
      · simp [hq, ih]
      · simp [hq, ih]

theorem countP_recurse_map_note (r : ℚ → Bool) (l : List Event) :
    List.countP r (recurseNoteOffsets (l.map MPartElem.note)) =
    List.countP (fun ev => r ev.offset) l := by
  induction l with
  | nil => rfl
  | cons ev rest ih =>
      have h1 : recurseNoteOffsets ((ev :: rest).map MPartElem.note) =
          ev.offset :: recurseNoteOffsets (rest.map MPartElem.note) := rfl
      rw [h1, List.countP_cons, List.countP_cons, ih]

/-- Sanity link between the two part models: on a purely top-level part
(only flat insertion-level events, as `add_notes` produces), the
Measure-structured `remove_notes_h` removes exactly what the flat
`remove_notes_loop` removes and counts the same events — the flat model
used by the other claims is the `Measure`-free special case. -/
theorem remove_notes_h_flat_agrees (s e : ℚ) (l : List Event) :
    remove_notes_h (l.map MPartElem.note) s e =
      ((remove_notes_loop s e l).1.map MPartElem.note,
       (remove_notes_loop s e l).2) := by
  rw [remove_notes_loop_eq]
  have hA : List.filter (fun el =>
      match el with
      | MPartElem.note ev => !(decide (s ≤ ev.offset ∧ ev.offset < e))
      | MPartElem.measure _ _ => true) (l.map MPartElem.note) =
      (l.filter (fun ev =>
        decide (¬(s ≤ ev.offset ∧ ev.offset < e)))).map MPartElem.note := by
    rw [filter_keep_map_note]
    exact congrArg (List.map MPartElem.note)
      (List.filter_congr (fun a _ => decide_not.symm))
  have hB := countP_recurse_map_note (fun o => decide (s ≤ o ∧ o < e)) l
  exact congrArg₂ Prod.mk hA hB

/-! ## Claim C10 -/

/-- C10: every mutation operation reads and writes only the first part: all
parts other than the first are unchanged by `add_notes`, `remove_notes` and
the `replace_passage` tool (also through the Handler's dispatch), and
appended notes land in the first part. -/
theorem mutations_touch_only_first_part (d : MidiData)
    (notes : List (String × ℚ × ℚ)) (s e : ℚ) (c : ToolCall) :
    (add_notes d notes).1.restParts = d.restParts ∧
    (add_notes d notes).1.part0 =
      d.part0 ++ notes.map (fun n =>
        ⟨n.2.2, MElem.note (parsePitch n.1) n.2.1⟩) ∧
    (remove_notes d s e).1.restParts = d.restParts ∧
    (tool_replace_passage d s e notes).1.restParts = d.restParts ∧
    (handler_dispatch d c).1.restParts = d.restParts := by
  refine ⟨rfl, rfl, rfl, tool_replace_passage_restParts d s e notes, ?_⟩
  cases c with
  | add_notes notes2 =>
      by_cases hv : add_notes_args_valid notes2 <;>
        simp [handler_dispatch, hv, add_notes_restParts]
  | remove_notes s2 e2 =>
      by_cases hv : remove_notes_args_valid s2 e2 <;>
        simp [handler_dispatch, hv, remove_notes_restParts]
  | replace_passage s2 e2 notes2 =>
      by_cases hv : replace_passage_args_valid s2 e2 notes2 <;>
        simp [handler_dispatch, hv, tool_replace_passage_restParts]

/-! ## Claim C3 -/

/-- C3: whenever the review-iteration count has reached the ceiling —
in particular on the first call when the ceiling is 0 — `reviewer_planner`
returns a forced Satisfied verdict (reviewer satisfied, review mode exited,
iteration count bumped, no message produced) without invoking the
Generation Oracle: the `oracleInvoked` flag is false and the result does not
depend on the Oracle's reply at all. -/
theorem reviewer_ceiling_forces_satisfied (c m : Nat) (d : MidiData)
    (pd bpm : ℚ) (tm : Int) (oracle : String) (h : m ≤ c) :
    reviewer_planner c m d pd bpm tm oracle =
      { reviewerSatisfied := true
        reviewIterations := c + 1
        inReviewMode := false
        messagesUpdate := []
        oracleInvoked := false
        printed := ["Maximum review iterations (" ++ toString m ++
          ") reached. Ending review process."] } ∧
    (∀ oracle2, reviewer_planner c m d pd bpm tm oracle =
      reviewer_planner c m d pd bpm tm oracle2) := by
  have hge : c ≥ m := h
  constructor
  · simp [reviewer_planner, hge]
  · intro oracle2
    simp [reviewer_planner, hge]

/-- Witness for C3: ceiling 0, first call (`iterationsUsed = 0`). -/
theorem reviewer_ceiling_forces_satisfied_witness :
    reviewer_planner 0 0 dEx 8 3 4 "would revise measure 2" =
      { reviewerSatisfied := true
        reviewIterations := 1
        inReviewMode := false
        messagesUpdate := []
        oracleInvoked := false
        printed := ["Maximum review iterations (0) reached. Ending review process."] } :=
  (reviewer_ceiling_forces_satisfied 0 0 dEx 8 3 4 "would revise measure 2"
    (Nat.le_refl 0)).1

/-! ## Claim C7 -/

/-- C7: a forced-Satisfied termination (ceiling reached) is distinguishable
in the logged output from a genuine Satisfied verdict in which the Reviewer
answered Verified: the printed lines of the two invocations always
differ (the forced branch prints the single ceiling line, the genuine branch
prints the iteration header plus the satisfaction line).  The returned state
updates alone would be indistinguishable, so the distinction lives in the
log, as the claim allows. -/
theorem forced_and_genuine_print_differently (c1 m1 c2 m2 : Nat)
    (d1 d2 : MidiData) (pd1 bpm1 pd2 bpm2 : ℚ) (tm1 tm2 : Int)
    (o1 o2 : String) (h1 : m1 ≤ c1) (h2 : c2 < m2)
    (hv : pyLower (pyStrip o2) = "verified") :
    (reviewer_planner c1 m1 d1 pd1 bpm1 tm1 o1).printed ≠
      (reviewer_planner c2 m2 d2 pd2 bpm2 tm2 o2).printed := by
  intro hEq
  have e1 : (reviewer_planner c1 m1 d1 pd1 bpm1 tm1 o1).printed.length = 1 := by
    have hge : c1 ≥ m1 := h1
    simp [reviewer_planner, hge]
  have e2 : (reviewer_planner c2 m2 d2 pd2 bpm2 tm2 o2).printed.length = 2 := by
    have hn : ¬(c2 ≥ m2) := Nat.not_le.mpr h2
    simp [reviewer_planner, hn, hv]
  rw [hEq] at e1
  exact absurd (e1.symm.trans e2) (by decide)

/-- Witness for C7: a forced termination at ceiling 3 against a genuine
Verified verdict on iteration 1. -/
theorem forced_and_genuine_print_differently_witness :
    (reviewer_planner 3 3 dEx 8 3 4 "ceiling hit").printed ≠
      (reviewer_planner 0 3 dEx 8 3 4 "Verified").printed :=
  forced_and_genuine_print_differently 3 3 0 3 dEx dEx 8 3 8 3 4 4
    "ceiling hit" "Verified" (Nat.le_refl 3) (by decide) (by decide)

/-! ## Claim C9 -/

/-- C9: below the ceiling, the verdict parsing is exact-match — the reviewer
is marked satisfied iff the Oracle's reply, stripped, lowercases to the
single word verified or is empty; any other reply (e.g. trailing
punctuation) becomes a Revise instruction handed to the Handler with the
full piece attached (`get_notes_json()` over the whole score: as many JSON
entries as there are events in the part). -/
theorem reviewer_verdict_parsing (c m : Nat) (d : MidiData) (pd bpm : ℚ)
    (tm : Int) (o : String) (h : c < m) :
    ((reviewer_planner c m d pd bpm tm o).reviewerSatisfied = true ↔
      (pyLower (pyStrip o) = "verified" ∨ pyStrip o = "")) ∧
    (pyLower (pyStrip o) ≠ "verified" → pyStrip o ≠ "" →
      reviewer_planner c m d pd bpm tm o =
        { reviewerSatisfied := false
          reviewIterations := c + 1
          inReviewMode := true
          messagesUpdate := [Msg.human (reviewerContent d pd bpm tm (pyStrip o))]
          oracleInvoked := true
          printed := ["Review iteration " ++ toString (c + 1) ++ "/" ++
            toString m, "Reviewer critique: \x27" ++ pyStrip o ++ "\x27"] }) ∧
    (get_notes_json d pd bpm tm 0).length = d.part0.length := by
  have hn : ¬(c ≥ m) := Nat.not_le.mpr h
  refine ⟨?_, ?_, ?_⟩
  · by_cases hv : pyLower (pyStrip o) = "verified"
    · simp [reviewer_planner, hn, hv]
    · by_cases he : pyStrip o = ""
      · simp [reviewer_planner, hn, hv, he]
      · simp [reviewer_planner, hn, hv, he]
  · intro hv he
    simp [reviewer_planner, hn, hv, he]
  · rw [get_notes_json_zero, List.length_map, get_notes_zero_length]

/-- Witness for C9: the reply with trailing punctuation, `"Verified."`,
is not accepted as Satisfied. -/
theorem reviewer_verdict_parsing_witness :
    (((reviewer_planner 0 3 dEx 8 3 4 "Verified.").reviewerSatisfied = true ↔
      (pyLower (pyStrip "Verified.") = "verified" ∨ pyStrip "Verified." = "")) ∧
     (reviewer_planner 0 3 dEx 8 3 4 "Verified.").reviewerSatisfied = false) :=
  ⟨(reviewer_verdict_parsing 0 3 dEx 8 3 4 "Verified." (by decide)).1,
   by decide⟩

/-! ## Claim C1 -/

/-- C1 counterexample: a Reviewer hand-off to the Handler does not reset the
conversation log.  On a concrete five-entry log (system message, old
instruction and a Handler tool-call transcript), applying the message update
of a revising `reviewer_planner` call leaves a log that does not have two
entries, and the old tool-call transcript message is still in it. -/
theorem reviewer_handoff_keeps_old_log :
    (add_messages logEx
      (reviewer_planner 0 3 dEx 8 3 4 "Fix measure 3").messagesUpdate).length ≠ 2 ∧
    Msg.toolMsg "Added 3 notes." ∈
      add_messages logEx
        (reviewer_planner 0 3 dEx 8 3 4 "Fix measure 3").messagesUpdate := by
  decide

/-- C1 amended: only Composer hand-offs reset the conversation log to
exactly the two entries `[system-message, new-instruction]`; a Reviewer
hand-off appends its instruction to the existing log, so prior Handler
transcripts carry over into the next Handler invocation. -/
theorem handoff_log_protocol (log : List Msg) (s : String)
    (d d2 : MidiData) (pd bpm pd2 bpm2 : ℚ) (tm tm2 : Int)
    (sugg critique : String) (c m : Nat)
    (hhead : log.head? = some (Msg.system s))
    (hc : c < m)
    (hv : pyLower (pyStrip critique) ≠ "verified")
    (hne : pyStrip critique ≠ "") :
    add_messages log (composer_planner log d pd bpm tm sugg) =
      [Msg.system s, Msg.human (composerContent d pd bpm tm sugg)] ∧
    add_messages log
        (reviewer_planner c m d2 pd2 bpm2 tm2 critique).messagesUpdate =
      log ++ [Msg.human (reviewerContent d2 pd2 bpm2 tm2 (pyStrip critique))] := by
  have hn : ¬(c ≥ m) := Nat.not_le.mpr hc
  constructor
  · simp [composer_planner, hhead, add_messages]
  · simp [reviewer_planner, hn, hv, hne, add_messages]

/-- Witness for the amended C1 on a concrete one-entry log, a Composer
hand-off and a revising Reviewer hand-off. -/
theorem handoff_log_protocol_witness :
    add_messages [Msg.system "sys"]
        (composer_planner [Msg.system "sys"] dEx 8 3 4 "add one measure") =
      [Msg.system "sys", Msg.human (composerContent dEx 8 3 4 "add one measure")] ∧
    add_messages [Msg.system "sys"]
        (reviewer_planner 0 3 dEx 8 3 4 "Fix measure 3").messagesUpdate =
      [Msg.system "sys"] ++
        [Msg.human (reviewerContent dEx 8 3 4 (pyStrip "Fix measure 3"))] :=
  handoff_log_protocol [Msg.system "sys"] "sys" dEx dEx 8 3 8 3 4 4
    "add one measure" "Fix measure 3" 0 3 rfl (by decide) (by decide) (by decide)

/-! ## Claim C6 -/

/-- The tool name a call is dispatched under. -/
def toolCallName : ToolCall → String
  | ToolCall.add_notes _ => "add_notes"
  | ToolCall.remove_notes _ _ => "remove_notes"
  | ToolCall.replace_passage _ _ _ => "replace_passage"

/-- C6 counterexample: the schemas do not accept every non-negative offset —
`remove_notes` declares `start_offset` with `gt=0`, so the in-contract call
`deleteRange(0, 4)` (start offset `0`, which is a non-negative offset) is
rejected by schema validation. -/
theorem delete_schema_rejects_offset_zero :
    (0 : ℚ) ≤ 0 ∧ (0 : ℚ) < 4 ∧
    schemaValid (ToolCall.remove_notes 0 4) = false := by
  decide

/-- C6 amended: note items are validated against a schema accepting exactly
the non-negative offsets and strictly positive durations; the range
arguments of `remove_notes` must both be strictly positive and the end of
`replace_passage` strictly positive (so a range offset of 0 is rejected even
though it is non-negative); every schema-violating call — e.g. `append` with
`duration = 0` — is rejected with a validation message reported into the
conversation while the score is left untouched and no exception is raised. -/
theorem tool_validation_protocol :
    (∀ dur off : ℚ, noteInputValid dur off = true ↔ (0 < dur ∧ 0 ≤ off)) ∧
    (∀ s e : ℚ, remove_notes_args_valid s e = true ↔ (0 < s ∧ 0 < e)) ∧
    (∀ (s e : ℚ) (notes : List (String × ℚ × ℚ)),
      replace_passage_args_valid s e notes = true ↔
        (0 ≤ s ∧ 0 < e ∧ ∀ n ∈ notes, 0 < n.2.1 ∧ 0 ≤ n.2.2)) ∧
    (∀ (d : MidiData) (c : ToolCall), schemaValid c = false →
      handler_dispatch d c = (d, Except.ok (validationMsg (toolCallName c)))) := by
  refine ⟨?_, ?_, ?_, ?_⟩
  · intro dur off
    simp [noteInputValid]
  · intro s e
    simp [remove_notes_args_valid]
  · intro s e notes
    simp [replace_passage_args_valid, noteInputValid, and_assoc]
  · intro d c hc
    cases c with
    | add_notes notes =>
        simp only [schemaValid] at hc
        simp [handler_dispatch, hc, toolCallName]
    | remove_notes s e =>
        simp only [schemaValid] at hc
        simp [handler_dispatch, hc, toolCallName]
    | replace_passage s e notes =>
        simp only [schemaValid] at hc
        simp [handler_dispatch, hc, toolCallName]

/-- Witness for the amended C6: the spec scenario `append` with
`duration = 0` is schema-rejected, reported, and mutates nothing. -/
theorem tool_validation_protocol_witness :
    schemaValid (ToolCall.add_notes [("C4", 0, 0)]) = false ∧
    handler_dispatch dEx (ToolCall.add_notes [("C4", 0, 0)]) =
      (dEx, Except.ok (validationMsg "add_notes")) :=
  ⟨by decide,
   tool_validation_protocol.2.2.2 dEx (ToolCall.add_notes [("C4", 0, 0)])
     (by decide)⟩

/-! ## Claim C8 -/

/-- C8 counterexample: loading does not respell every qualifying pitch of
the piece.  In the two-part score `dEx2` the second part holds `G-`
(pitch class 6), whose name is not among the G-major scale names while its
pitch class matches the scale's `F#` — `respellPitch` would map it to `F#`
in the same octave — yet after `MidiHandler.__init__` the note still reads
`G-`, because `normalize_pitches_to_key` visits only `parts[0]`. -/
theorem normalize_skips_nonfirst_parts :
    (mhInit dEx2).restParts = [[⟨0, MElem.note ⟨"G-", 6, 4⟩ 1⟩]] ∧
    "G-" ∉ keyPitchNames keyEx ∧
    (keyEx.pitches.find? (fun kp => kp.pitchClass == 6)).map Pitch.name =
      some "F#" ∧
    respellPitch keyEx ⟨"G-", 6, 4⟩ = ⟨"F#", 6, 4⟩ := by
  decide

/-- C8 amended: construction of the artifact handler mutates the piece
before any step runs, but only in the first part: every note or chord pitch
of `parts[0]` whose name is not in the key scale and whose pitch class
matches a scale pitch is respelled to that scale spelling with its octave
preserved (and its pitch class unchanged); pitches already spelled in the
scale, or matching no scale pitch class, are untouched, and all parts other
than the first are left exactly as loaded. -/
theorem normalize_respells_first_part :
    (∀ d : MidiData,
      (mhInit d).restParts = d.restParts ∧
      (mhInit d).part0 = d.part0.map (normalizeEvent d.key)) ∧
    (∀ (key : Key) (p : Pitch),
      (p.name ∈ keyPitchNames key → respellPitch key p = p) ∧
      (p.name ∉ keyPitchNames key →
        ((∃ kp ∈ key.pitches, kp.pitchClass = p.pitchClass) →
          (respellPitch key p).name ∈ keyPitchNames key ∧
          (respellPitch key p).octave = p.octave ∧
          (respellPitch key p).pitchClass = p.pitchClass) ∧
        ((∀ kp ∈ key.pitches, kp.pitchClass ≠ p.pitchClass) →
          respellPitch key p = p))) := by
  constructor
  · intro d
    exact ⟨rfl, rfl⟩
  · intro key p
    constructor
    · intro hmem
      simp [respellPitch, hmem]
    · intro hmem
      constructor
      · rintro ⟨kp, hkp, hpc⟩
        rcases hfind : key.pitches.find? (fun k => k.pitchClass == p.pitchClass)
          with _ | kq
        · exfalso
          have hnone := List.find?_eq_none.mp hfind kp hkp
          exact hnone (by simpa using hpc)
        · have hq := List.find?_some hfind
          have hqc : kq.pitchClass = p.pitchClass := by simpa using hq
          have hqm : kq ∈ key.pitches := List.mem_of_find?_eq_some hfind
          have hout : respellPitch key p = ⟨kq.name, kq.pitchClass, p.octave⟩ := by
            simp [respellPitch, hmem, hfind]
          rw [hout]
          exact ⟨show kq.name ∈ keyPitchNames key from
            List.mem_map_of_mem Pitch.name hqm, rfl, hqc⟩
      · intro hall
        have hfind : key.pitches.find?
            (fun k => k.pitchClass == p.pitchClass) = none :=
          List.find?_eq_none.mpr (fun k hk => by
            simpa using hall k hk)
        simp [respellPitch, hmem, hfind]

/-- Witness for the amended C8: respelling a concrete out-of-scale `G-`
(pitch class 6) against the G-major key lands on a scale spelling with the
octave and pitch class preserved. -/
theorem normalize_respells_first_part_witness :
    (respellPitch keyEx ⟨"G-", 6, 5⟩).name ∈ keyPitchNames keyEx ∧
    (respellPitch keyEx ⟨"G-", 6, 5⟩).octave = 5 ∧
    (respellPitch keyEx ⟨"G-", 6, 5⟩).pitchClass = 6 :=
  ((normalize_respells_first_part.2 keyEx ⟨"G-", 6, 5⟩).2 (by decide)).1
    ⟨⟨"F#", 6, 5⟩, by decide, rfl⟩

end CompAssist
